import Mathlib

/-!
Formal model of the `transport-shared` package's authorization core:
the token service (`AuthUtils`), the secure random generators (`Utils`),
and the role-hierarchy resolver described by the design document.

Machine integers of the source (JS numbers holding epoch seconds) are
modelled as `Int`; durations in seconds as `Nat`.  The `jsonwebtoken`
library is external to the repository and is modelled symbolically: a
signed token records its claim set, the secret it was signed with and
the issuer/audience bound at signature time; verification compares
those components and the expiry against the supplied clock.
-/

namespace TransportShared

/-- The `UserType` enum of the shared types module. -/
inductive UserType
  | PASSENGER
  | DRIVER
  | ADMIN
  | SYSTEM
deriving DecidableEq

/-- The `User` interface (fields the core reads; `Date` values as epoch ms). -/
structure User where
  id : String
  email : String
  firstName : String
  lastName : String
  userType : UserType
  emailVerified : Bool
  phoneVerified : Bool
  createdAt : Int
  updatedAt : Int
deriving DecidableEq

/-- The `Role` interface of the shared types module. -/
structure Role where
  id : String
  name : String
  displayName : String
  description : Option String
  parentRoleId : Option String
  isSystemRole : Bool
  isActive : Bool
  createdAt : Int
  updatedAt : Int
deriving DecidableEq

/-- The `Permission` interface of the shared types module. -/
structure Permission where
  id : String
  name : String
  displayName : String
  description : Option String
  resource : String
  action : String
  contextRequired : Bool
  createdAt : Int
deriving DecidableEq

/-- The `UserRole` assignment interface of the shared types module. -/
structure UserRole where
  id : String
  userId : String
  roleId : String
  contextType : Option String
  contextId : Option String
  assignedBy : Option String
  expiresAt : Option Int
  isActive : Bool
  createdAt : Int
deriving DecidableEq

/--
The claim set carried by a signed token, modelling the JSON object that
`jwt.sign` receives and `jwt.verify` returns.  The TS `JwtPayload`
interface corresponds to a claim set whose `email`, `userType`, `roles`
and `permissions` fields are present; the refresh payload is a claim set
whose `type` field is present.  Absent JSON fields are `none`.
-/
structure Claims where
  sub : String
  email : Option String := none
  userType : Option UserType := none
  roles : Option (List String) := none
  permissions : Option (List String) := none
  type : Option String := none
  jti : Option String := none
  iat : Int
  exp : Int
deriving DecidableEq

/--
A token produced by the (external, symbolically modelled) `jwt.sign`:
the claim set, the signing secret, the issuer and audience bound into
the signature, and the optional `jti` field of the protected header.
-/
structure SignedToken where
  claims : Claims
  secret : String
  iss : String
  aud : String
  headerJti : Option String := none
deriving DecidableEq

/-- A raw token string: either a decodable signed token or garbage. -/
inductive RawToken
  | valid (t : SignedToken)
  | malformed (s : String)
deriving DecidableEq

/-- The distinguishable failure conditions inside the modelled `jwt.verify`. -/
inductive VerifyError
  | malformedToken
  | badSignature
  | expired
  | badAudience
  | badIssuer
deriving DecidableEq

/--
Model of `jwt.verify(token, secret, issuer and audience options)` at clock
time `now`: a malformed token, a secret mismatch, an expired claim set
(`now` at or past `exp`, as `jsonwebtoken` checks), or an
issuer/audience mismatch each raise a distinguishable error; otherwise
the decoded claim set is returned.
-/
def jwtVerify (token : RawToken) (secret issuer audience : String)
    (now : Int) : Except VerifyError Claims :=
  match token with
  | .malformed _ => .error .malformedToken
  | .valid t =>
    if t.secret ≠ secret then .error .badSignature
    else if now ≥ t.claims.exp then .error .expired
    else if t.aud ≠ audience then .error .badAudience
    else if t.iss ≠ issuer then .error .badIssuer
    else .ok t.claims

/-- Result of `jwt.decode(token, the complete option)`: header and payload. -/
structure DecodedComplete where
  headerJti : Option String
  payload : Claims
deriving DecidableEq

/-- Model of `jwt.decode(token, the complete option)`: `null` on garbage. -/
def jwtDecodeComplete : RawToken → Option DecodedComplete
  | .valid t => some ⟨t.headerJti, t.claims⟩
  | .malformed _ => none

/-- The `JwtConfig` interface of the auth module. -/
structure JwtConfig where
  accessTokenSecret : String
  refreshTokenSecret : String
  accessTokenExpiry : String
  refreshTokenExpiry : String
  issuer : String
  audience : String
deriving DecidableEq

/-- The `AuthTokens` interface: the issued pair plus lifetime and label. -/
structure AuthTokens where
  accessToken : RawToken
  refreshToken : RawToken
  expiresIn : Nat
  tokenType : String
deriving DecidableEq

/--
The external randomness consumed by the generators, as explicit byte and
number streams: `cryptoByte i` is the `i`-th byte drawn from
`crypto.randomBytes` (a cryptographically secure source) and
`mathRandom i` determines the `i`-th value of `Math.floor(Math.random()*10)`
(a non-cryptographic PRNG), taken mod 10.
-/
structure RandomEnv where
  cryptoByte : Nat → Nat
  mathRandom : Nat → Nat

/-- Lowercase hex digit for a value below 16. -/
def hexChar (n : Nat) : Char :=
  if n < 10 then Char.ofNat (48 + n) else Char.ofNat (87 + n)

/-- The two lowercase hex digits of one byte, as `Buffer.toString` hex. -/
def byteHex (b : Nat) : List Char :=
  [hexChar ((b % 256) / 16), hexChar ((b % 256) % 16)]

namespace Utils

/--
Source `Utils.generateRandomString(length)`:
`crypto.randomBytes(length).toString("hex")` — `length` bytes drawn from
the cryptographically secure stream, rendered as `2 * length` hex chars.
-/
def generateRandomString (env : RandomEnv) (length : Nat := 32) : String :=
  String.mk (((List.range length).map fun i => byteHex (env.cryptoByte i)).flatten)

/--
Source `Utils.generateVerificationCode(length)`: each position indexes the
string `"0123456789"` by `Math.floor(Math.random() * 10)`, i.e. each
digit is drawn from the non-cryptographic `Math.random` stream.
-/
def generateVerificationCode (env : RandomEnv) (length : Nat := 6) : String :=
  String.mk ((List.range length).map fun i => Char.ofNat (48 + env.mathRandom i % 10))

end Utils

namespace AuthUtils

/-- Last element split off a character list (the regex anchors `(\d+)([smhd])$`). -/
def splitLast : List Char → Option (List Char × Char)
  | [] => none
  | [c] => some ([], c)
  | c :: c2 :: rest =>
    match splitLast (c2 :: rest) with
    | some (ds, u) => some (c :: ds, u)
    | none => none

/-- The `multipliers` record of `parseExpiry`, keyed by the unit character. -/
def unitMultiplier (u : Char) : Option Nat :=
  if u = 's' then some 1
  else if u = 'm' then some 60
  else if u = 'h' then some 3600
  else if u = 'd' then some 86400
  else none

/-- Decimal value of a digit list, as `parseInt(_, 10)` on the matched digits. -/
def digitsVal (l : List Char) : Nat :=
  l.foldl (fun acc c => acc * 10 + (c.toNat - 48)) 0

/--
Source `AuthUtils.parseExpiry(expiry)`: matches `^(\d+)([smhd])$` and returns
`value * multipliers[unit]` in seconds; any string not of that shape
throws `Invalid expiry format`, modelled as `Except.error`.
-/
def parseExpiry (expiry : String) : Except String Nat :=
  match splitLast expiry.data with
  | none => .error ("Invalid expiry format: " ++ expiry)
  | some (ds, u) =>
    match unitMultiplier u with
    | none => .error ("Invalid expiry format: " ++ expiry)
    | some mult =>
      if !ds.isEmpty && ds.all Char.isDigit then .ok (digitsVal ds * mult)
      else .error ("Invalid expiry format: " ++ expiry)

/--
Source `AuthUtils.generateTokens(user, roles, permissions)` at clock `now`:
parses both configured expiries (propagating the fatal format error),
builds the access claim set (`sub`, `email`, `userType`, flattened role
and permission names, `iat = now`, `exp = now + accessExpiry`) signed
with the access secret, and the refresh claim set (`sub`,
`type = "refresh"`, its own expiry) signed with the refresh secret,
both bound to the configured issuer and audience.
-/
def generateTokens (cfg : JwtConfig) (now : Int) (user : User)
    (roles : List Role) (permissions : List Permission) :
    Except String AuthTokens := do
  let accessTokenExpiry ← parseExpiry cfg.accessTokenExpiry
  let refreshTokenExpiry ← parseExpiry cfg.refreshTokenExpiry
  let payload : Claims :=
    { sub := user.id
      email := some user.email
      userType := some user.userType
      roles := some (roles.map Role.name)
      permissions := some (permissions.map Permission.name)
      iat := now
      exp := now + (accessTokenExpiry : Int) }
  let accessToken := RawToken.valid
    { claims := payload, secret := cfg.accessTokenSecret
      iss := cfg.issuer, aud := cfg.audience }
  let refreshPayload : Claims :=
    { sub := user.id
      type := some "refresh"
      iat := now
      exp := now + (refreshTokenExpiry : Int) }
  let refreshToken := RawToken.valid
    { claims := refreshPayload, secret := cfg.refreshTokenSecret
      iss := cfg.issuer, aud := cfg.audience }
  pure { accessToken := accessToken, refreshToken := refreshToken
         expiresIn := accessTokenExpiry, tokenType := "Bearer" }

/--
Source `AuthUtils.verifyAccessToken(token)` at clock `now`: `jwt.verify` with
the access secret, issuer and audience; every library failure is caught
and recovered into `null` (`none`).  The TS `as JwtPayload` cast is a
compile-time assertion only, so the decoded claim set is returned as is.
-/
def verifyAccessToken (cfg : JwtConfig) (now : Int) (token : RawToken) :
    Option Claims :=
  match jwtVerify token cfg.accessTokenSecret cfg.issuer cfg.audience now with
  | .ok decoded => some decoded
  | .error _ => none

/--
Source `AuthUtils.verifyRefreshToken(token)` at clock `now`: `jwt.verify` with
the refresh secret, issuer and audience, recovering every failure into
`null`; a decoded claim set whose `type` discriminator is not
`"refresh"` is also rejected, otherwise `sub` and `type` are returned.
-/
def verifyRefreshToken (cfg : JwtConfig) (now : Int) (token : RawToken) :
    Option (String × String) :=
  match jwtVerify token cfg.refreshTokenSecret cfg.issuer cfg.audience now with
  | .ok decoded =>
    if decoded.type = some "refresh" then some (decoded.sub, "refresh") else none
  | .error _ => none

/-- Source `AuthUtils.isTokenExpired(payload)` at clock `now`: `payload.exp < now`. -/
def isTokenExpired (payload : Claims) (now : Int) : Bool :=
  decide (payload.exp < now)

/-- Source `AuthUtils.getTimeToExpiry(payload)` at clock `now`: `max(0, exp - now)`. -/
def getTimeToExpiry (payload : Claims) (now : Int) : Int :=
  max 0 (payload.exp - now)

/--
Source `AuthUtils.shouldRefreshToken(payload, thresholdSeconds = 300)`:
true when the clamped time to expiry is at most the threshold.
-/
def shouldRefreshToken (payload : Claims) (now : Int)
    (thresholdSeconds : Int := 300) : Bool :=
  decide (getTimeToExpiry payload now ≤ thresholdSeconds)

/-- Source `AuthUtils.generateSecureToken(length = 32)`. -/
def generateSecureToken (env : RandomEnv) (length : Nat := 32) : String :=
  Utils.generateRandomString env length

/-- Source `AuthUtils.generateEmailVerificationToken()`: 32 random bytes as hex. -/
def generateEmailVerificationToken (env : RandomEnv) : String :=
  Utils.generateRandomString env 32

/-- Source `AuthUtils.generatePasswordResetToken()`: 32 random bytes as hex. -/
def generatePasswordResetToken (env : RandomEnv) : String :=
  Utils.generateRandomString env 32

/-- Source `AuthUtils.generatePhoneVerificationCode()`: 6-digit code. -/
def generatePhoneVerificationCode (env : RandomEnv) : String :=
  Utils.generateVerificationCode env 6

/-- Source `AuthUtils.generateSessionId()`: 64 random bytes as hex. -/
def generateSessionId (env : RandomEnv) : String :=
  Utils.generateRandomString env 64

/-- Source `AuthUtils.generateCsrfToken()`: 32 random bytes as hex. -/
def generateCsrfToken (env : RandomEnv) : String :=
  Utils.generateRandomString env 32

/--
Source `AuthUtils.extractTokenId(token)`, with the external sha256 hex digest
supplied as `sha256hex`.  On a decodable token the source evaluates
`decoded.header.jti || decoded.sub`; with a complete decode the
top-level object has no `sub` field, so that expression is the header's
`jti` when present and truthy (non-empty) and the JS `undefined`
(modelled `none`) otherwise.  Only when `jwt.decode` yields `null` —
a non-decodable token — does the thrown property access reach the catch
branch, which returns the first 16 hex chars of the digest of the raw
token string.
-/
def extractTokenId (sha256hex : String → String) : RawToken → Option String
  | .valid t =>
    match t.headerJti with
    | some j => if j = "" then none else some j
    | none => none
  | .malformed s => some ((sha256hex s).take 16)

end AuthUtils

/-- The failure conditions of the role-hierarchy walk. -/
inductive ResolveError
  | cyclicRoleHierarchy
  | outOfFuel
deriving DecidableEq

/-- Role lookup by id in the role graph. -/
def findRole (graph : List Role) (rid : String) : Option Role :=
  graph.find? fun r => r.id == rid

/--
Modelled from the spec: the repository snapshot carries no role ↔
permission attachment table (it lives behind the persistence
collaborator), so the permissions directly attached to a role are
supplied as an explicit `roleId ↦ permission names` association list.
-/
def rolePermsOf (rolePerms : List (String × List String)) (rid : String) :
    List String :=
  match rolePerms.find? fun p => p.1 == rid with
  | some p => p.2
  | none => []

/-- Source `contextRequired` flag of a permission name per the catalog. -/
def contextRequiredOf (catalog : List Permission) (name : String) : Bool :=
  match catalog.find? fun p => p.name == name with
  | some p => p.contextRequired
  | none => false

/--
Modelled from the spec: an assignment is effective at time `now` iff it
is active and its `expiresAt` is null or strictly in the future.
-/
def assignmentEffective (now : Int) (a : UserRole) : Bool :=
  a.isActive &&
    (match a.expiresAt with
     | none => true
     | some t => decide (now < t))

/--
Modelled from the spec: the parent-chain walk of the role-hierarchy
resolver, which is absent from the repository snapshot.  Starting from a
role id it collects the permissions directly attached to every role on
the chain up to a role with no parent, maintaining the set of visited
role ids and failing with `CyclicRoleHierarchy` when a role is
revisited.  The walk is written with explicit fuel; a fuel of
`graph.length + 1` is proved sufficient below.
-/
def walkChain (graph : List Role) (rolePerms : List (String × List String)) :
    Nat → List String → String → Except ResolveError (List String)
  | 0, _, _ => .error .outOfFuel
  | Nat.succ fuel, visited, rid =>
    if rid ∈ visited then .error .cyclicRoleHierarchy
    else
      match findRole graph rid with
      | none => .ok []
      | some r =>
        match r.parentRoleId with
        | none => .ok (rolePermsOf rolePerms rid)
        | some pid =>
          (walkChain graph rolePerms fuel (rid :: visited) pid).map
            fun rest => rolePermsOf rolePerms rid ++ rest

/--
Modelled from the spec: the permissions one effective assignment
contributes, appended to the accumulator — its role chain walked upward,
and permissions flagged `contextRequired` kept only when the assignment
carries a context.
-/
def assignmentGrant (graph : List Role)
    (rolePerms : List (String × List String)) (catalog : List Permission)
    (acc : List String) (a : UserRole) : Except ResolveError (List String) := do
  let perms ← walkChain graph rolePerms (graph.length + 1) [] a.roleId
  let granted :=
    if a.contextType.isSome then perms
    else perms.filter fun p => !contextRequiredOf catalog p
  pure (acc ++ granted)

/--
Modelled from the spec: `resolveEffectivePermissions(userId, assignments,
roleGraph, permissionCatalog, now)`, absent from the repository snapshot.
Only active, unexpired assignments are considered; each one's role chain
is walked upward collecting attached permissions; a permission flagged
`contextRequired` is kept only when granted through an assignment that
carries a context; the result is deduplicated (a set of names).
-/
def resolveEffectivePermissions (assignments : List UserRole)
    (graph : List Role) (rolePerms : List (String × List String))
    (catalog : List Permission) (now : Int) :
    Except ResolveError (List String) := do
  let eff := assignments.filter (assignmentEffective now)
  let collected ← eff.foldlM (assignmentGrant graph rolePerms catalog)
    ([] : List String)
  pure collected.dedup

/-!  Spec-side definitions, used only to state refinement properties. -/

/-- Seconds per unit as the specification words them: s, m, h, d. -/
def unitSeconds (u : Char) : Nat :=
  if u = 's' then 1
  else if u = 'm' then 60
  else if u = 'h' then 3600
  else if u = 'd' then 86400
  else 0

/--
Spec-side shape of a duration string as the specification words it: a
nonempty run of decimal digits of value `n` followed by a single unit
character among s, m, h, d.
-/
def ExpirySpecForm (s : String) (n : Nat) (u : Char) : Prop :=
  ∃ ds : List Char, ds ≠ [] ∧ (∀ c ∈ ds, c.isDigit = true) ∧
    AuthUtils.digitsVal ds = n ∧ s.data = ds ++ [u] ∧
    u ∈ (['s', 'm', 'h', 'd'] : List Char)

/-!  Concrete instances used by witnesses and counterexamples. -/

/-- A configuration with distinct access and refresh secrets. -/
def cfgEx : JwtConfig :=
  { accessTokenSecret := "asecret", refreshTokenSecret := "rsecret"
    accessTokenExpiry := "15m", refreshTokenExpiry := "7d"
    issuer := "test-iss", audience := "test-aud" }

/-- A configuration whose access and refresh secrets happen to be equal. -/
def cfgEqEx : JwtConfig :=
  { accessTokenSecret := "shared-secret", refreshTokenSecret := "shared-secret"
    accessTokenExpiry := "15m", refreshTokenExpiry := "7d"
    issuer := "test-iss", audience := "test-aud" }

/-- A concrete valid user. -/
def userEx : User :=
  { id := "user-1", email := "u@example.com", firstName := "Ama"
    lastName := "Mensah", userType := .PASSENGER, emailVerified := true
    phoneVerified := false, createdAt := 0, updatedAt := 0 }

/-- The token pair issued at time 0 under `cfgEx`. -/
def tokensEx : AuthTokens :=
  match AuthUtils.generateTokens cfgEx 0 userEx [] [] with
  | .ok t => t
  | .error _ =>
    { accessToken := .malformed "", refreshToken := .malformed ""
      expiresIn := 0, tokenType := "" }

/-- The token pair issued at time 0 under the equal-secret `cfgEqEx`. -/
def tokensEqEx : AuthTokens :=
  match AuthUtils.generateTokens cfgEqEx 0 userEx [] [] with
  | .ok t => t
  | .error _ =>
    { accessToken := .malformed "", refreshToken := .malformed ""
      expiresIn := 0, tokenType := "" }

/-- A payload expiring at time 100. -/
def payloadEx : Claims := { sub := "user-1", iat := 0, exp := 100 }

/-- Randomness where every crypto byte is 0 and every Math.random digit 0. -/
def envA : RandomEnv := { cryptoByte := fun _ => 0, mathRandom := fun _ => 0 }

/-- Randomness with the same crypto bytes as `envA` but Math.random digit 1. -/
def envB : RandomEnv := { cryptoByte := fun _ => 0, mathRandom := fun _ => 1 }

/-- A concrete stand-in for the external sha256 hex digest. -/
def idHash : String → String := fun s => "digest-of-" ++ s

/--
A decodable token that carries the unique token identifier claim
`jti = "tok-1"` in its signed claim set but has no header `jti`.
-/
def c8TokenEx : SignedToken :=
  { claims := { sub := "user-1", jti := some "tok-1", iat := 0, exp := 100 }
    secret := "asecret", iss := "test-iss", aud := "test-aud"
    headerJti := none }

/-- Role A, whose parent is B. -/
def roleA : Role :=
  { id := "A", name := "role_a", displayName := "Role A", description := none
    parentRoleId := some "B", isSystemRole := false, isActive := true
    createdAt := 0, updatedAt := 0 }

/-- Role B, whose parent is C. -/
def roleB : Role :=
  { id := "B", name := "role_b", displayName := "Role B", description := none
    parentRoleId := some "C", isSystemRole := false, isActive := true
    createdAt := 0, updatedAt := 0 }

/-- Role C, whose parent is set back to A, closing the cycle. -/
def roleC : Role :=
  { id := "C", name := "role_c", displayName := "Role C", description := none
    parentRoleId := some "A", isSystemRole := false, isActive := true
    createdAt := 0, updatedAt := 0 }

/-- The cyclic role graph A to B to C back to A. -/
def cycGraphEx : List Role := [roleA, roleB, roleC]

/-- An active, unexpired assignment of role A. -/
def cycAssignEx : UserRole :=
  { id := "as-1", userId := "user-1", roleId := "A", contextType := none
    contextId := none, assignedBy := none, expiresAt := none
    isActive := true, createdAt := 0 }

/-- Permissions directly attached to the roles of the cyclic graph. -/
def cycRolePermsEx : List (String × List String) :=
  [("A", ["perm.a"]), ("B", ["perm.b"]), ("C", ["perm.c"])]

/-- A decodable token whose protected header carries a `jti`. -/
def hdrTokenEx : SignedToken :=
  { claims := { sub := "user-2", iat := 0, exp := 50 }
    secret := "asecret", iss := "test-iss", aud := "test-aud"
    headerJti := some "hdr-jti-1" }

/-!  Theorems. -/

/-- Unfolding of a successful `generateTokens` call. -/
theorem generateTokens_ok {cfg : JwtConfig} {now : Int} {user : User}
    {rs : List Role} {ps : List Permission} {tokens : AuthTokens}
    (h : AuthUtils.generateTokens cfg now user rs ps = .ok tokens) :
    ∃ ae re : Nat,
      AuthUtils.parseExpiry cfg.accessTokenExpiry = .ok ae ∧
      AuthUtils.parseExpiry cfg.refreshTokenExpiry = .ok re ∧
      tokens =
        { accessToken := RawToken.valid
            { claims :=
                { sub := user.id, email := some user.email
                  userType := some user.userType
                  roles := some (rs.map Role.name)
                  permissions := some (ps.map Permission.name)
                  iat := now, exp := now + (ae : Int) }
              secret := cfg.accessTokenSecret
              iss := cfg.issuer, aud := cfg.audience }
          refreshToken := RawToken.valid
            { claims :=
                { sub := user.id, type := some "refresh"
                  iat := now, exp := now + (re : Int) }
              secret := cfg.refreshTokenSecret
              iss := cfg.issuer, aud := cfg.audience }
          expiresIn := ae, tokenType := "Bearer" } := by
  unfold AuthUtils.generateTokens at h
  cases h1 : AuthUtils.parseExpiry cfg.accessTokenExpiry with
  | error e => rw [h1] at h; simp [Bind.bind, Except.bind] at h
  | ok ae =>
    cases h2 : AuthUtils.parseExpiry cfg.refreshTokenExpiry with
    | error e => rw [h1, h2] at h; simp [Bind.bind, Except.bind] at h
    | ok re =>
      rw [h1, h2] at h
      simp only [Bind.bind, Except.bind, pure, Except.pure, Except.ok.injEq] at h
      exact ⟨ae, re, rfl, rfl, h.symm⟩

/--
C1.  Round-trip: whenever `generateTokens` succeeds, verifying the
issued access token (at any clock time within its lifetime) succeeds and
returns a payload whose `sub` is the user's id and whose `roles` and
`permissions` are exactly the flattened input names.
-/
theorem claim1_roundTrip (cfg : JwtConfig) (now vt : Int) (user : User)
    (rs : List Role) (ps : List Permission) (tokens : AuthTokens)
    (hgen : AuthUtils.generateTokens cfg now user rs ps = .ok tokens)
    (hvt : vt < now + (tokens.expiresIn : Int)) :
    ∃ c : Claims,
      AuthUtils.verifyAccessToken cfg vt tokens.accessToken = some c ∧
      c.sub = user.id ∧
      c.roles = some (rs.map Role.name) ∧
      c.permissions = some (ps.map Permission.name) := by
  obtain ⟨ae, re, h1, h2, htok⟩ := generateTokens_ok hgen
  subst htok
  simp only [AuthUtils.verifyAccessToken, jwtVerify]
  rw [if_neg (by simp), if_neg (by simp at hvt ⊢; omega), if_neg (by simp),
    if_neg (by simp)]
  exact ⟨_, rfl, rfl, rfl, rfl⟩

/-- Witness for C1 at a concrete configuration, user and clock. -/
theorem claim1_roundTrip_witness :
    ∃ c : Claims,
      AuthUtils.verifyAccessToken cfgEx 10 tokensEx.accessToken = some c ∧
      c.sub = userEx.id ∧
      c.roles = some (([] : List Role).map Role.name) ∧
      c.permissions = some (([] : List Permission).map Permission.name) :=
  claim1_roundTrip cfgEx 0 10 userEx [] [] tokensEx rfl (by decide)

/--
C2 counterexample.  When the access and refresh secrets happen to be
equal, the refresh token issued by `generateTokens` is accepted by
`verifyAccessToken` (which checks no discriminator claim), contradicting
the claim that it is always rejected.
-/
theorem claim2_counterexample :
    AuthUtils.verifyAccessToken cfgEqEx 10 tokensEqEx.refreshToken =
      some { sub := "user-1", type := some "refresh", iat := 0, exp := 604800 } :=
  rfl

/--
C2 amended.  The access token is always rejected by `verifyRefreshToken`
(its claim set carries no `type = "refresh"` discriminator, so the check
fires even when the secrets coincide); the refresh token is rejected by
`verifyAccessToken` whenever the two secrets differ — `verifyAccessToken`
itself checks no discriminator.
-/
theorem claim2_tokenTypeSeparation (cfg : JwtConfig) (now vt : Int)
    (user : User) (rs : List Role) (ps : List Permission) (tokens : AuthTokens)
    (hgen : AuthUtils.generateTokens cfg now user rs ps = .ok tokens) :
    AuthUtils.verifyRefreshToken cfg vt tokens.accessToken = none ∧
    (cfg.accessTokenSecret ≠ cfg.refreshTokenSecret →
      AuthUtils.verifyAccessToken cfg vt tokens.refreshToken = none) := by
  obtain ⟨ae, re, h1, h2, htok⟩ := generateTokens_ok hgen
  subst htok
  constructor
  · simp only [AuthUtils.verifyRefreshToken, jwtVerify]
    split_ifs <;> simp
  · intro hneq
    simp only [AuthUtils.verifyAccessToken, jwtVerify]
    rw [if_pos (fun hc => hneq hc.symm)]

/-- Witness for the amended C2 at a distinct-secret configuration. -/
theorem claim2_witness :
    AuthUtils.verifyRefreshToken cfgEx 10 tokensEx.accessToken = none ∧
    AuthUtils.verifyAccessToken cfgEx 10 tokensEx.refreshToken = none :=
  ⟨(claim2_tokenTypeSeparation cfgEx 0 10 userEx [] [] tokensEx rfl).1,
   (claim2_tokenTypeSeparation cfgEx 0 10 userEx [] [] tokensEx rfl).2
     (by decide)⟩

/--
C3 counterexample.  At the instant `now = exp` the claim says the token
is already expired, but `isTokenExpired` (`payload.exp < now`) still
reports `false`.
-/
theorem claim3_counterexample :
    AuthUtils.isTokenExpired payloadEx 100 = false :=
  rfl

/--
C3 amended.  `isTokenExpired` reports expiry exactly when the clock is
strictly past `exp` (`exp < now`), while verification already rejects at
`now = exp` (the library boundary is `now ≥ exp`); a token checked one
second before `exp` is both accepted and not reported expired.
-/
theorem claim3_expiryBoundary :
    (∀ (c : Claims) (t : Int), AuthUtils.isTokenExpired c t = true ↔ c.exp < t)
    ∧ ∀ (cfg : JwtConfig) (now : Int) (user : User) (rs : List Role)
        (ps : List Permission) (tokens : AuthTokens),
        AuthUtils.generateTokens cfg now user rs ps = .ok tokens →
        (∀ vt : Int, now + (tokens.expiresIn : Int) ≤ vt →
          AuthUtils.verifyAccessToken cfg vt tokens.accessToken = none)
        ∧ ∃ c : Claims,
            AuthUtils.verifyAccessToken cfg (now + (tokens.expiresIn : Int) - 1)
              tokens.accessToken = some c ∧
            AuthUtils.isTokenExpired c (now + (tokens.expiresIn : Int) - 1) =
              false := by
  constructor
  · intro c t
    simp [AuthUtils.isTokenExpired]
  · intro cfg now user rs ps tokens hgen
    obtain ⟨ae, re, h1, h2, htok⟩ := generateTokens_ok hgen
    subst htok
    constructor
    · intro vt hvt
      simp only [AuthUtils.verifyAccessToken, jwtVerify]
      rw [if_neg (by simp)]
      rw [if_pos (by simp at hvt ⊢; omega)]
    · refine ⟨{ sub := user.id, email := some user.email
                userType := some user.userType
                roles := some (rs.map Role.name)
                permissions := some (ps.map Permission.name)
                iat := now, exp := now + (ae : Int) }, ?_, ?_⟩
      · simp only [AuthUtils.verifyAccessToken, jwtVerify]
        rw [if_neg (by simp), if_neg (by simp), if_neg (by simp),
          if_neg (by simp)]
      · simp [AuthUtils.isTokenExpired]

/-- Witness for the amended C3 at the concrete issued pair. -/
theorem claim3_witness :
    AuthUtils.verifyAccessToken cfgEx 900 tokensEx.accessToken = none ∧
    ∃ c : Claims,
      AuthUtils.verifyAccessToken cfgEx 899 tokensEx.accessToken = some c ∧
      AuthUtils.isTokenExpired c 899 = false := by
  have h := claim3_expiryBoundary.2 cfgEx 0 userEx [] [] tokensEx rfl
  exact ⟨h.1 900 (by decide), h.2⟩

/--
C5.  Every failure the verification library can raise — malformed token,
bad signature, expiry, wrong audience or issuer — is recovered locally
by `verifyAccessToken` and `verifyRefreshToken` into the single invalid
value `none`, indistinguishable across reasons, and both functions
always return either a decoded result or that value (they never throw).
-/
theorem claim5_uniformRecovery (cfg : JwtConfig) (now : Int)
    (token : RawToken) :
    (∀ e : VerifyError,
      jwtVerify token cfg.accessTokenSecret cfg.issuer cfg.audience now =
        .error e →
      AuthUtils.verifyAccessToken cfg now token = none)
    ∧ (∀ e : VerifyError,
      jwtVerify token cfg.refreshTokenSecret cfg.issuer cfg.audience now =
        .error e →
      AuthUtils.verifyRefreshToken cfg now token = none)
    ∧ ((∃ c, AuthUtils.verifyAccessToken cfg now token = some c) ∨
        AuthUtils.verifyAccessToken cfg now token = none)
    ∧ ((∃ r, AuthUtils.verifyRefreshToken cfg now token = some r) ∨
        AuthUtils.verifyRefreshToken cfg now token = none) := by
  refine ⟨?_, ?_, ?_, ?_⟩
  · intro e he
    simp [AuthUtils.verifyAccessToken, he]
  · intro e he
    simp [AuthUtils.verifyRefreshToken, he]
  · cases h : AuthUtils.verifyAccessToken cfg now token with
    | none => exact Or.inr rfl
    | some c => exact Or.inl ⟨c, rfl⟩
  · cases h : AuthUtils.verifyRefreshToken cfg now token with
    | none => exact Or.inr rfl
    | some r => exact Or.inl ⟨r, rfl⟩

/-- Witness for C5 on a concrete malformed token. -/
theorem claim5_witness :
    AuthUtils.verifyAccessToken cfgEx 0 (.malformed "not-a-jwt") = none ∧
    AuthUtils.verifyRefreshToken cfgEx 0 (.malformed "not-a-jwt") = none :=
  ⟨(claim5_uniformRecovery cfgEx 0 (.malformed "not-a-jwt")).1
      .malformedToken rfl,
   (claim5_uniformRecovery cfgEx 0 (.malformed "not-a-jwt")).2.1
      .malformedToken rfl⟩

/-- Splitting the last element off a nonempty list. -/
theorem splitLast_append (ds : List Char) (u : Char) :
    AuthUtils.splitLast (ds ++ [u]) = some (ds, u) := by
  induction ds with
  | nil => rfl
  | cons c cs ih =>
    cases cs with
    | nil => rfl
    | cons c2 cs2 =>
      simp only [List.cons_append] at ih ⊢
      simp [AuthUtils.splitLast, ih]

/-- Soundness of `splitLast`: a successful split reassembles the list. -/
theorem splitLast_sound :
    ∀ (l ds : List Char) (u : Char),
      AuthUtils.splitLast l = some (ds, u) → l = ds ++ [u] := by
  intro l
  induction l with
  | nil => intro ds u h; simp [AuthUtils.splitLast] at h
  | cons c cs ih =>
    intro ds u h
    cases cs with
    | nil =>
      simp [AuthUtils.splitLast] at h
      obtain ⟨h1, h2⟩ := h
      subst h1
      subst h2
      rfl
    | cons c2 cs2 =>
      rw [show AuthUtils.splitLast (c :: c2 :: cs2) =
            (match AuthUtils.splitLast (c2 :: cs2) with
             | some (ds, u) => some (c :: ds, u)
             | none => none) from rfl] at h
      cases hs : AuthUtils.splitLast (c2 :: cs2) with
      | none => rw [hs] at h; simp at h
      | some p =>
        obtain ⟨ds2, u2⟩ := p
        rw [hs] at h
        simp only [Option.some.injEq, Prod.mk.injEq] at h
        obtain ⟨h1, h2⟩ := h
        rw [← h1, ← h2, ih ds2 u2 hs]
        rfl

/-- A unit accepted by `unitMultiplier` is one of the four spec units. -/
theorem unitMultiplier_mem {u : Char} {m : Nat}
    (h : AuthUtils.unitMultiplier u = some m) :
    u ∈ (['s', 'm', 'h', 'd'] : List Char) := by
  unfold AuthUtils.unitMultiplier at h
  split_ifs at h with h1 h2 h3 h4 <;> simp_all

/-- On the four spec units, `unitMultiplier` agrees with `unitSeconds`. -/
theorem unitMultiplier_eq_unitSeconds {u : Char}
    (h : u ∈ (['s', 'm', 'h', 'd'] : List Char)) :
    AuthUtils.unitMultiplier u = some (unitSeconds u) := by
  fin_cases h <;> rfl

/--
C6.  `parseExpiry` accepts exactly the strings of the spec shape
(nonempty decimal digits followed by one of s, m, h, d), returning the
value times 1, 60, 3600 or 86400 seconds respectively, and fails with
the invalid-format error on every other string.
-/
theorem claim6_parseExpiry (s : String) :
    (∀ (n : Nat) (u : Char), ExpirySpecForm s n u →
      AuthUtils.parseExpiry s = .ok (n * unitSeconds u))
    ∧ ((¬ ∃ n u, ExpirySpecForm s n u) →
      AuthUtils.parseExpiry s = .error ("Invalid expiry format: " ++ s)) := by
  constructor
  · rintro n u ⟨ds, hne, hdig, hval, hdata, hu⟩
    have hsplit : AuthUtils.splitLast s.data = some (ds, u) := by
      rw [hdata]
      exact splitLast_append ds u
    have hne' : ds.isEmpty = false := by
      cases ds with
      | nil => exact absurd rfl hne
      | cons a l => rfl
    simp [AuthUtils.parseExpiry, hsplit, unitMultiplier_eq_unitSeconds hu,
      hne', List.all_eq_true.mpr hdig, hval]
  · intro hnex
    cases hsplit : AuthUtils.splitLast s.data with
    | none => simp [AuthUtils.parseExpiry, hsplit]
    | some p =>
      obtain ⟨ds, u⟩ := p
      cases hum : AuthUtils.unitMultiplier u with
      | none => simp [AuthUtils.parseExpiry, hsplit, hum]
      | some m =>
        cases hcond : (!ds.isEmpty && ds.all Char.isDigit) with
        | false => simp [AuthUtils.parseExpiry, hsplit, hum, hcond]
        | true =>
          exfalso
          simp only [Bool.and_eq_true, Bool.not_eq_true', List.all_eq_true]
            at hcond
          refine hnex ⟨AuthUtils.digitsVal ds, u, ds, ?_, hcond.2, rfl,
            splitLast_sound _ _ _ hsplit, unitMultiplier_mem hum⟩
          intro hds
          rw [hds] at hcond
          exact absurd hcond.1 (by simp)

/-- Witness for C6: a well-formed and a malformed duration string. -/
theorem claim6_witness :
    AuthUtils.parseExpiry "15m" = .ok (15 * unitSeconds 'm') ∧
    AuthUtils.parseExpiry "15q" = .error "Invalid expiry format: 15q" := by
  constructor
  · exact (claim6_parseExpiry "15m").1 15 'm'
      ⟨['1', '5'], by decide, by decide, by decide, by decide, by decide⟩
  · refine (claim6_parseExpiry "15q").2 ?_
    rintro ⟨n, u, ds, hne, hdig, hval, hdata, hu⟩
    have hlit : ("15q".data : List Char) = ['1', '5', 'q'] := rfl
    rw [hlit] at hdata
    have h1 : (ds ++ [u]).getLast? = some u := by simp
    rw [← hdata] at h1
    have h2 : 'q' = u := by simpa using h1
    rw [← h2] at hu
    exact absurd hu (by decide)

/--
C7.  The hex token generators (email-verification, password-reset,
session id, CSRF) read only the cryptographically secure byte stream:
with the crypto bytes fixed their outputs are fixed.  The 6-digit phone
verification code instead reads the non-cryptographic `Math.random`
stream: with identical crypto bytes but different `Math.random` values
it produces different codes, contradicting the claim that every
generator draws all of its randomness from a cryptographically secure
source.
-/
theorem claim7_randomnessSource :
    envA.cryptoByte = envB.cryptoByte
    ∧ AuthUtils.generatePhoneVerificationCode envA = "000000"
    ∧ AuthUtils.generatePhoneVerificationCode envB = "111111"
    ∧ AuthUtils.generateEmailVerificationToken envA =
        AuthUtils.generateEmailVerificationToken envB
    ∧ AuthUtils.generatePasswordResetToken envA =
        AuthUtils.generatePasswordResetToken envB
    ∧ AuthUtils.generateSessionId envA = AuthUtils.generateSessionId envB
    ∧ AuthUtils.generateCsrfToken envA = AuthUtils.generateCsrfToken envB := by
  exact ⟨rfl, by decide, by decide, rfl, rfl, rfl, rfl⟩

/--
C8 counterexample.  A decodable token that carries the unique token
identifier claim `jti = "tok-1"` in its signed claim set: the source
reads `decoded.header.jti || decoded.sub` on the complete decode, both
of which are the JS `undefined`, so `extractTokenId` returns neither the
embedded identifier nor a hash of the raw token.
-/
theorem claim8_counterexample :
    AuthUtils.extractTokenId idHash (.valid c8TokenEx) = none :=
  rfl

/--
C8 amended.  `extractTokenId` returns the protected header's `jti` when
present and non-empty (it never reads the payload's identifier claim);
on any other decodable token it returns the JS `undefined` (`none`)
rather than a hash; on a non-decodable token it returns the sha256 hex
digest of the raw token truncated to 16 characters; and, being a pure
function of the token, it is stable.
-/
theorem claim8_extractTokenId (sha256hex : String → String) :
    (∀ (t : SignedToken) (j : String), t.headerJti = some j → j ≠ "" →
      AuthUtils.extractTokenId sha256hex (.valid t) = some j)
    ∧ (∀ t : SignedToken, t.headerJti = none ∨ t.headerJti = some "" →
      AuthUtils.extractTokenId sha256hex (.valid t) = none)
    ∧ (∀ s : String,
      AuthUtils.extractTokenId sha256hex (.malformed s) =
        some ((sha256hex s).take 16))
    ∧ (∀ tok : RawToken,
      AuthUtils.extractTokenId sha256hex tok =
        AuthUtils.extractTokenId sha256hex tok) := by
  refine ⟨?_, ?_, fun s => rfl, fun tok => rfl⟩
  · intro t j hj hne
    simp [AuthUtils.extractTokenId, hj, hne]
  · intro t hj
    rcases hj with h | h <;> simp [AuthUtils.extractTokenId, h]

/-- Witness for the amended C8: header `jti` case and hash-fallback case. -/
theorem claim8_witness :
    AuthUtils.extractTokenId idHash (.valid hdrTokenEx) = some "hdr-jti-1" ∧
    AuthUtils.extractTokenId idHash (.malformed "garbage") =
      some ((idHash "garbage").take 16) :=
  ⟨(claim8_extractTokenId idHash).1 hdrTokenEx "hdr-jti-1" rfl (by decide),
   (claim8_extractTokenId idHash).2.2.1 "garbage"⟩

/--
C9.  For every payload and every non-negative threshold,
`shouldRefreshToken` returns true exactly when the remaining lifetime
`exp - now` is at most the threshold.
-/
theorem claim9_shouldRefreshIff (payload : Claims) (now threshold : Int)
    (h : 0 ≤ threshold) :
    AuthUtils.shouldRefreshToken payload now threshold = true ↔
      payload.exp - now ≤ threshold := by
  simp only [AuthUtils.shouldRefreshToken, AuthUtils.getTimeToExpiry,
    decide_eq_true_eq]
  omega

/-- Witness for C9: threshold 300 at remaining lifetimes 0, 299, 300, 301. -/
theorem claim9_witness :
    AuthUtils.shouldRefreshToken { sub := "u", iat := 0, exp := 0 } 0 300 =
      true ∧
    AuthUtils.shouldRefreshToken { sub := "u", iat := 0, exp := 299 } 0 300 =
      true ∧
    AuthUtils.shouldRefreshToken { sub := "u", iat := 0, exp := 300 } 0 300 =
      true ∧
    AuthUtils.shouldRefreshToken { sub := "u", iat := 0, exp := 301 } 0 300 =
      false := by
  refine ⟨?_, ?_, ?_, ?_⟩
  · exact (claim9_shouldRefreshIff _ 0 300 (by decide)).mpr (by decide)
  · exact (claim9_shouldRefreshIff _ 0 300 (by decide)).mpr (by decide)
  · exact (claim9_shouldRefreshIff _ 0 300 (by decide)).mpr (by decide)
  · cases hb : AuthUtils.shouldRefreshToken
      { sub := "u", iat := 0, exp := 301 } 0 300 with
    | false => rfl
    | true =>
      exact absurd ((claim9_shouldRefreshIff _ 0 300 (by decide)).mp hb)
        (by decide)

/--
C10.  `getTimeToExpiry` is the clamp `max 0 (exp - now)`, hence never
negative, and on an already-expired payload `shouldRefreshToken` returns
true for every non-negative threshold.
-/
theorem claim10_timeToExpiryNonneg (payload : Claims) (now threshold : Int) :
    AuthUtils.getTimeToExpiry payload now = max 0 (payload.exp - now)
    ∧ 0 ≤ AuthUtils.getTimeToExpiry payload now
    ∧ (AuthUtils.isTokenExpired payload now = true → 0 ≤ threshold →
        AuthUtils.shouldRefreshToken payload now threshold = true) := by
  refine ⟨rfl, le_max_left _ _, ?_⟩
  intro hexp hth
  simp only [AuthUtils.isTokenExpired, decide_eq_true_eq] at hexp
  simp only [AuthUtils.shouldRefreshToken, AuthUtils.getTimeToExpiry,
    decide_eq_true_eq]
  omega

/-- Witness for C10 on a payload already expired at the current clock. -/
theorem claim10_witness :
    0 ≤ AuthUtils.getTimeToExpiry payloadEx 150 ∧
    AuthUtils.shouldRefreshToken payloadEx 150 300 = true :=
  ⟨(claim10_timeToExpiryNonneg payloadEx 150 300).2.1,
   (claim10_timeToExpiryNonneg payloadEx 150 300).2.2 (by decide) (by decide)⟩

/-- A found role belongs to the graph and has the looked-up id. -/
theorem findRole_mem {graph : List Role} {rid : String} {r : Role}
    (h : findRole graph rid = some r) : r ∈ graph ∧ r.id = rid := by
  unfold findRole at h
  refine ⟨List.mem_of_find?_eq_some h, ?_⟩
  have h1 := List.find?_some h
  simpa using h1

/--
Fuel sufficiency for the chain walk: as long as the fuel exceeds the
number of graph roles not yet visited, the walk never runs out of fuel —
it either completes or detects a revisited role.
-/
theorem walkChain_ne_outOfFuel (graph : List Role)
    (rolePerms : List (String × List String)) :
    ∀ (fuel : Nat) (visited : List String) (rid : String),
      visited.Nodup →
      (∀ v ∈ visited, v ∈ graph.map Role.id) →
      graph.length + 1 ≤ fuel + visited.length →
      walkChain graph rolePerms fuel visited rid ≠ .error .outOfFuel := by
  intro fuel
  induction fuel with
  | zero =>
    intro visited rid hnd hsub hlen
    exfalso
    have h1 : visited.toFinset.card = visited.length :=
      List.toFinset_card_of_nodup hnd
    have h2 : visited.toFinset ⊆ (graph.map Role.id).toFinset := by
      intro x hx
      rw [List.mem_toFinset] at hx ⊢
      exact hsub x hx
    have h3 := Finset.card_le_card h2
    have h4 := (graph.map Role.id).toFinset_card_le
    rw [List.length_map] at h4
    omega
  | succ fuel ih =>
    intro visited rid hnd hsub hlen
    by_cases hmem : rid ∈ visited
    · simp [walkChain, hmem]
    · cases hfind : findRole graph rid with
      | none => simp [walkChain, hmem, hfind]
      | some r =>
        cases hpar : r.parentRoleId with
        | none => simp [walkChain, hmem, hfind, hpar]
        | some pid =>
          have hmem2 : rid ∈ graph.map Role.id := by
            obtain ⟨hg, hid⟩ := findRole_mem hfind
            exact List.mem_map.mpr ⟨r, hg, hid⟩
          have hrec := ih (rid :: visited) pid
            (List.nodup_cons.mpr ⟨hmem, hnd⟩)
            (by
              intro v hv
              rcases List.mem_cons.mp hv with h | h
              · rw [h]; exact hmem2
              · exact hsub v h)
            (by simp only [List.length_cons]; omega)
          simp only [walkChain, if_neg hmem, hfind, hpar]
          cases hw : walkChain graph rolePerms fuel (rid :: visited) pid with
          | ok l => simp [hw, Except.map]
          | error e =>
            cases e with
            | cyclicRoleHierarchy => simp [hw, Except.map]
            | outOfFuel => exact absurd hw hrec

/-- With fuel `graph.length + 1`, a walk from any role either completes
or reports the cyclic-hierarchy condition. -/
theorem walkChain_shape (graph : List Role)
    (rolePerms : List (String × List String)) (rid : String) :
    (∃ l, walkChain graph rolePerms (graph.length + 1) [] rid = .ok l) ∨
    walkChain graph rolePerms (graph.length + 1) [] rid =
      .error .cyclicRoleHierarchy := by
  have h := walkChain_ne_outOfFuel graph rolePerms (graph.length + 1) [] rid
    List.nodup_nil (by simp) (by simp)
  cases hw : walkChain graph rolePerms (graph.length + 1) [] rid with
  | ok l => exact Or.inl ⟨l, rfl⟩
  | error e =>
    cases e with
    | cyclicRoleHierarchy => exact Or.inr rfl
    | outOfFuel => exact absurd hw h

/-- One assignment's contribution either succeeds or reports the cycle. -/
theorem assignmentGrant_shape (graph : List Role)
    (rolePerms : List (String × List String)) (catalog : List Permission) :
    ∀ (acc : List String) (a : UserRole),
      (∃ v, assignmentGrant graph rolePerms catalog acc a = .ok v) ∨
      assignmentGrant graph rolePerms catalog acc a =
        .error .cyclicRoleHierarchy := by
  intro acc a
  unfold assignmentGrant
  rcases walkChain_shape graph rolePerms a.roleId with ⟨l, hl⟩ | hl
  · left
    refine ⟨acc ++ (if a.contextType.isSome then l
      else l.filter fun p => !contextRequiredOf catalog p), ?_⟩
    rw [hl]
    rfl
  · right
    rw [hl]
    rfl

/-- Folding a step that never runs out of fuel never runs out of fuel. -/
theorem foldlM_shape {α γ : Type} (f : γ → α → Except ResolveError γ)
    (hf : ∀ acc a, (∃ v, f acc a = .ok v) ∨ f acc a = .error .cyclicRoleHierarchy) :
    ∀ (l : List α) (acc : γ),
      (∃ res, List.foldlM f acc l = .ok res) ∨
      List.foldlM f acc l = .error .cyclicRoleHierarchy := by
  intro l
  induction l with
  | nil => intro acc; exact Or.inl ⟨acc, rfl⟩
  | cons a t ih =>
    intro acc
    rcases hf acc a with ⟨v, hv⟩ | hv
    · have hstep : List.foldlM f acc (a :: t) = List.foldlM f v t := by
        simp only [List.foldlM, hv]
        rfl
      rw [hstep]
      exact ih v
    · right
      show List.foldlM f acc (a :: t) = Except.error ResolveError.cyclicRoleHierarchy
      simp only [List.foldlM, hv]
      rfl

/--
C4.  The resolver terminates on every input — its result is always
either a permission set or the `CyclicRoleHierarchy` condition, never
fuel exhaustion — and on the concrete cyclic graph A, parent B, parent
C, parent back to A, a user assigned A resolves to the
`CyclicRoleHierarchy` failure rather than a silent result.
-/
theorem claim4_resolverTerminationAndCycle :
    (∀ (assignments : List UserRole) (graph : List Role)
        (rolePerms : List (String × List String)) (catalog : List Permission)
        (now : Int),
      (∃ l, resolveEffectivePermissions assignments graph rolePerms catalog
        now = .ok l) ∨
      resolveEffectivePermissions assignments graph rolePerms catalog now =
        .error .cyclicRoleHierarchy)
    ∧ resolveEffectivePermissions [cycAssignEx] cycGraphEx cycRolePermsEx
        [] 0 = .error .cyclicRoleHierarchy := by
  constructor
  · intro assignments graph rolePerms catalog now
    rcases foldlM_shape (assignmentGrant graph rolePerms catalog)
        (assignmentGrant_shape graph rolePerms catalog)
        (assignments.filter (assignmentEffective now)) [] with
      ⟨res, hres⟩ | hres
    · left
      refine ⟨res.dedup, ?_⟩
      simp only [resolveEffectivePermissions]
      rw [hres]
      rfl
    · right
      simp only [resolveEffectivePermissions]
      rw [hres]
      rfl
  · rfl

end TransportShared
